import Mathlib

/-!
Verification of the `claude-docker` command-line wrapper.

The Python sources (`claude_docker.py` and its earlier hand-rolled variant
`claude-docker.py`) are shallowly embedded: every interaction with the
outside world (environment variables, subprocesses, the file system, the
process id) is mediated by an explicit `Sys` record, and each Python
function becomes a pure Lean function over `Sys` and its ordinary
arguments.  Machine-level byte values are modelled as `Nat` (always below
256 where it matters), Python `str` as Lean `String`, Python `None` as
`Option`, and a Python `raise`/`sys.exit` as an `Except`/dedicated
constructor.
-/

namespace ClaudeDocker

/-- The ambient system state read by the program: `scriptDir` is
`SCRIPT_DIR` (the resolved directory of the script), `env` is
`os.environ.get`, `run` maps an argv to the `(returncode, stdout)` of
`subprocess.run` on it, `sha256hex` is `hashlib`'s hex digest on a byte
string (feeding `update` twice digests the concatenation, which is why it
takes one byte list), `dockerfileBytes`/`entrypointBytes` are the contents
of `SCRIPT_DIR/Dockerfile` and `SCRIPT_DIR/entrypoint.sh`, `home` is
`Path.home()`, `users` is the passwd database consulted by
`os.path.expanduser` for `~user` forms, the `*Found`/`*Text` fields
describe the credential files, `formatStreamInScriptDir` and
`whichFormatStream` locate the `format-stream` filter, `pid` is
`os.getpid()`, and `containerExit`/`filterExit` are the exit statuses the
container process and the filter process will report. -/
structure Sys where
  scriptDir : String
  env : String → Option String
  run : List String → Int × String
  sha256hex : List Nat → String
  dockerfileBytes : List Nat
  entrypointBytes : List Nat
  home : String
  users : String → Option String
  credentialsFound : Bool
  tokenFileFound : Bool
  tokenFileText : String
  formatStreamInScriptDir : Bool
  whichFormatStream : Option String
  pid : Nat
  containerExit : Int
  filterExit : Int

/-- `IMAGE_NAME` from the configuration block. -/
def IMAGE_NAME : String := "claude-code"

/-- Characters removed by Python's `str.strip()` (the ASCII whitespace
set). -/
def pyIsSpace (c : Char) : Bool :=
  c = ' ' ∨ c = '\t' ∨ c = '\n' ∨ c = '\r' ∨ c = '\x0b' ∨ c = '\x0c'

/-- Python `str.strip()`: drop leading and trailing whitespace. -/
def pyStrip (s : String) : String :=
  ⟨((s.data.dropWhile pyIsSpace).reverse.dropWhile pyIsSpace).reverse⟩

/-- The `--format` template passed to `image inspect` (braces written as
escapes). -/
def labelFormatArg : String :=
  "\x7b\x7bindex .Config.Labels \"build.hash\"\x7d\x7d"

/-- `build_hash()`: SHA-256 hex digest of `Dockerfile` followed by
`entrypoint.sh` (two `update` calls digest the concatenation). -/
def build_hash (sys : Sys) : String :=
  sys.sha256hex (sys.dockerfileBytes ++ sys.entrypointBytes)

/-- `needs_rebuild(runtime)`: forced by `CLAUSE_DOCKER_FORCE_BUILD=1`,
else true when `image inspect` fails, else true when the stripped
`build.hash` label differs from `build_hash()`. -/
def needs_rebuild (sys : Sys) (runtime : String) : Bool :=
  if sys.env "CLAUSE_DOCKER_FORCE_BUILD" = some "1" then
    true
  else
    let r₁ := sys.run [runtime, "image", "inspect", IMAGE_NAME]
    if r₁.1 ≠ 0 then
      true
    else
      let r₂ := sys.run [runtime, "image", "inspect", IMAGE_NAME, "--format", labelFormatArg]
      pyStrip r₂.2 != build_hash sys

/-- Outcome of `_detect_runtime`: either a runtime name or
`sys.exit(status)` after printing a line to stderr. -/
inductive DetectOutcome where
  | found (runtime : String)
  | errorExit (status : Nat) (stderrLine : String)
  deriving DecidableEq, Repr

/-- `ClaudeDocker._detect_runtime`: `which docker` wins, then
`which finch`, else print an error and exit with status 1. -/
def detectRuntime (sys : Sys) : DetectOutcome :=
  if (sys.run ["which", "docker"]).1 = 0 then
    .found "docker"
  else if (sys.run ["which", "finch"]).1 = 0 then
    .found "finch"
  else
    .errorExit 1 "Error: No container runtime found. Install docker or finch."

/-- The mutable state of the `ClaudeDocker` instance:
`_running_container` and `_runtime`. -/
structure CDState where
  runningContainer : Option String
  cachedRuntime : Option String
  deriving DecidableEq, Repr

/-- Result of one access to the `runtime` property: the string produced,
the instance state afterwards, and whether `_detect_runtime` ran during
this access. -/
structure RuntimeAccess where
  value : String
  state : CDState
  detected : Bool
  deriving DecidableEq, Repr

/-- The `runtime` property: detect on first access and cache in
`_runtime`, answer from the cache afterwards.  A failing detection
propagates the `sys.exit` status. -/
def runtimeProperty (sys : Sys) (st : CDState) : Except Nat RuntimeAccess :=
  match st.cachedRuntime with
  | some r => .ok ⟨r, st, false⟩
  | none =>
    match detectRuntime sys with
    | .found r => .ok ⟨r, { st with cachedRuntime := some r }, true⟩
    | .errorExit n _ => .error n

/-- C1: `needs_rebuild(runtime)` returns `False` exactly when the force
variable is not `"1"`, the plain `image inspect` of `claude-code`
succeeds, and the stripped `build.hash` label printed by the `--format`
inspection equals the SHA-256 hex digest of the `Dockerfile` contents
concatenated with the `entrypoint.sh` contents; in every other case it
returns `True`. -/
theorem needs_rebuild_false_iff (sys : Sys) (runtime : String) :
    needs_rebuild sys runtime = false ↔
      ((sys.env "CLAUSE_DOCKER_FORCE_BUILD" == some "1") = false
        ∧ (sys.run [runtime, "image", "inspect", "claude-code"]).1 = 0
        ∧ pyStrip (sys.run [runtime, "image", "inspect", "claude-code",
              "--format", labelFormatArg]).2
            = sys.sha256hex (sys.dockerfileBytes ++ sys.entrypointBytes)) := by
  by_cases hF : sys.env "CLAUSE_DOCKER_FORCE_BUILD" = some "1"
  · simp [needs_rebuild, hF, IMAGE_NAME]
  · by_cases hI : (sys.run [runtime, "image", "inspect", "claude-code"]).1 = 0
    · simp [needs_rebuild, hF, hI, IMAGE_NAME, build_hash, bne_eq_false_iff_eq]
    · simp [needs_rebuild, hF, hI, IMAGE_NAME]

/-- C6: runtime auto-detection prefers docker: it answers `docker`
whenever `which docker` succeeds, answers `finch` when docker is absent
but `which finch` succeeds, and prints an error and exits with status 1
exactly when neither is available. -/
theorem detect_runtime_priority (sys : Sys) :
    ((sys.run ["which", "docker"]).1 = 0 → detectRuntime sys = .found "docker")
    ∧ ((sys.run ["which", "docker"]).1 ≠ 0 → (sys.run ["which", "finch"]).1 = 0 →
        detectRuntime sys = .found "finch")
    ∧ ((sys.run ["which", "docker"]).1 ≠ 0 → (sys.run ["which", "finch"]).1 ≠ 0 →
        detectRuntime sys =
          .errorExit 1 "Error: No container runtime found. Install docker or finch.") := by
  refine ⟨fun h => ?_, fun h₁ h₂ => ?_, fun h₁ h₂ => ?_⟩ <;>
    simp [detectRuntime, *]

/-- A concrete system in which only `which docker` succeeds. -/
def sysDockerOnly : Sys where
  scriptDir := "/opt/claude-docker"
  env := fun _ => none
  run := fun argv => if argv = ["which", "docker"] then (0, "") else (1, "")
  sha256hex := fun _ => ""
  dockerfileBytes := []
  entrypointBytes := []
  home := "/root"
  users := fun _ => none
  credentialsFound := false
  tokenFileFound := false
  tokenFileText := ""
  formatStreamInScriptDir := true
  whichFormatStream := none
  pid := 1
  containerExit := 0
  filterExit := 0

/-- Witness for C6 at a concrete system where docker is installed. -/
theorem detect_runtime_priority_witness :
    detectRuntime sysDockerOnly = .found "docker" :=
  (detect_runtime_priority sysDockerOnly).1 (by decide)

/-- C10: the detected runtime is stable within a process.  Whenever an
access to the `runtime` property succeeds, a later access — under any
system state whatsoever — returns the very same cached string and state
without running detection again; and an access that started with an empty
cache is the one that ran detection. -/
theorem runtime_property_cached (sys sys' : Sys) (st : CDState) (a : RuntimeAccess)
    (h : runtimeProperty sys st = .ok a) :
    runtimeProperty sys' a.state = .ok ⟨a.value, a.state, false⟩
    ∧ (st.cachedRuntime = none → a.detected = true) := by
  unfold runtimeProperty at h ⊢
  match hst : st.cachedRuntime with
  | some r =>
    rw [hst] at h
    cases h
    simp [hst]
  | none =>
    rw [hst] at h
    match hd : detectRuntime sys with
    | .found r =>
      rw [hd] at h
      cases h
      simp
    | .errorExit n m =>
      rw [hd] at h
      cases h

/-- Witness for C10: one access from the fresh state caches `docker`, and
the second access answers from the cache. -/
theorem runtime_property_cached_witness :
    runtimeProperty sysDockerOnly ⟨none, some "docker"⟩ =
      .ok ⟨"docker", ⟨none, some "docker"⟩, false⟩ :=
  (runtime_property_cached sysDockerOnly sysDockerOnly ⟨none, none⟩
    ⟨"docker", ⟨none, some "docker"⟩, true⟩ rfl).1

/-! ## YAML values and the agents file -/

/-- Values produced by `yaml.safe_load`: strings, integers, booleans,
null, sequences, and mappings (kept as association lists in document
order; the files at hand use distinct keys). -/
inductive YVal where
  | ystr (s : String)
  | ynum (n : Int)
  | ybool (b : Bool)
  | ynull
  | ylist (l : List YVal)
  | ydict (l : List (String × YVal))
  deriving Repr, BEq

/-- Python truthiness on a YAML value (`bool(x)`): empty string, zero,
`False`, `None`, empty list and empty dict are falsy. -/
def pyFalsy : YVal → Bool
  | .ystr s => s = ""
  | .ynum n => n = 0
  | .ybool b => !b
  | .ynull => true
  | .ylist l => l.isEmpty
  | .ydict l => l.isEmpty

/-- Strip trailing `/` characters (`str.rstrip('/')`). -/
def rstripSlash (s : String) : String :=
  ⟨(s.data.reverse.dropWhile (· = '/')).reverse⟩

/-- `os.path.expanduser` (posix): a path not starting with `~` is
returned unchanged; `~` and `~/...` use the home directory; `~user...`
consults the passwd database and is returned unchanged when the user is
unknown; the selected home is stripped of trailing slashes, glued to the
rest, and an empty result becomes `/`. -/
def pyExpanduser (sys : Sys) (path : String) : String :=
  match path.data with
  | '~' :: rest =>
    let name := rest.takeWhile (· ≠ '/')
    let tail : String := ⟨rest.dropWhile (· ≠ '/')⟩
    let userhome? : Option String :=
      if name.isEmpty then some sys.home else sys.users ⟨name⟩
    match userhome? with
    | none => path
    | some uh =>
      let r := rstripSlash uh ++ tail
      if r = "" then "/" else r
  | _ => path

/-- What `load_agents` leaves behind: the parsed value it returns and the
content of `agents.yaml` afterwards (`none` when the file is absent). -/
structure LoadAgentsResult where
  value : Option YVal
  fileAfter : Option String
  deriving Repr, BEq

/-- `load_agents(yaml_content=None)`: parse the given string when one is
passed, otherwise return `None` when `agents.yaml` is absent and the
parse of its content when present.  `parse` stands for the external
`yaml.safe_load` (PyYAML is taken as importable).  The function performs
no rewriting of the value and never writes the file, so the file content
after the call is the content before it. -/
def load_agents (parse : String → Option YVal) (agentsFile : Option String)
    (yamlContent : Option String) : LoadAgentsResult :=
  match yamlContent with
  | some c => ⟨parse c, agentsFile⟩
  | none =>
    match agentsFile with
    | none => ⟨none, agentsFile⟩
    | some c => ⟨parse c, agentsFile⟩

/-- Whether a loaded agents mapping holds `name` in the canonical
migrated shape the tests demand: a dict entry whose `prompt` key is the
string `/c3po auto`. -/
def entryMigrated (v : Option YVal) (name : String) : Bool :=
  match v with
  | some (.ydict l) =>
    match l.lookup name with
    | some (.ydict e) => e.lookup "prompt" == some (.ystr "/c3po auto")
    | _ => false
  | _ => false

/-- A `yaml.safe_load` on the one-line document of the migration test. -/
def notesParse : String → Option YVal := fun c =>
  if c = "notes: ~/Documents/Notes\n" then
    some (.ydict [("notes", .ystr "~/Documents/Notes")])
  else
    none

/-- C2 (the code at the failing input): on the agents file
`notes: ~/Documents/Notes`, `load_agents` hands back the string-shorthand
entry exactly as parsed — not the canonical dict shape with
`prompt: /c3po auto` that the lazy migration is supposed to produce — and
leaves the file bytes untouched, so no migration (lazy or otherwise) ever
happens. -/
theorem load_agents_no_migration :
    load_agents notesParse (some "notes: ~/Documents/Notes\n") none =
      ⟨some (.ydict [("notes", .ystr "~/Documents/Notes")]),
        some "notes: ~/Documents/Notes\n"⟩
    ∧ entryMigrated
        (load_agents notesParse (some "notes: ~/Documents/Notes\n") none).value
        "notes" = false :=
  ⟨rfl, rfl⟩

/-! ## Agent configurations -/

/-- `AgentConfig` as declared in the source: name, workspace, optional
model, environment mapping and init commands.  There are no further
fields. -/
structure AgentConfig where
  name : String
  workspace : String
  model : Option YVal := none
  env : YVal := .ydict []
  init : YVal := .ylist []
  deriving Repr, BEq

/-- `x or {}` on the result of `raw.get("env", {})`: an absent key gives
the empty dict, a falsy value is replaced by the empty dict. -/
def pyOrEmptyDict : Option YVal → YVal
  | none => .ydict []
  | some v => if pyFalsy v then .ydict [] else v

/-- `x or []` on the result of `raw.get("init", [])`. -/
def pyOrEmptyList : Option YVal → YVal
  | none => .ylist []
  | some v => if pyFalsy v then .ylist [] else v

/-- `get_agent_config(name, agents)`: `None` for a missing or null entry,
the expanded string shorthand or the dict's `workspace` field otherwise —
refusing an empty expansion — and `None` for an entry of any other type.
A dict whose `workspace` value is not a string makes `os.path.expanduser`
raise a `TypeError`, modelled as the `Except.error` case. -/
def get_agent_config (sys : Sys) (name : String) (agents : List (String × YVal)) :
    Except String (Option AgentConfig) :=
  match agents.lookup name with
  | none => .ok none
  | some .ynull => .ok none
  | some (.ystr s) =>
    let workspace := pyExpanduser sys s
    if workspace = "" then .ok none
    else .ok (some { name := name, workspace := workspace })
  | some (.ydict l) =>
    match (l.lookup "workspace").getD (.ystr "") with
    | .ystr s =>
      let workspace := pyExpanduser sys s
      if workspace = "" then .ok none
      else
        .ok (some
          { name := name
            workspace := workspace
            model := match l.lookup "model" with
                     | some .ynull => none
                     | v => v
            env := pyOrEmptyDict (l.lookup "env")
            init := pyOrEmptyList (l.lookup "init") })
    | _ => .error "TypeError: expanduser() argument must be str"
  | some _ => .ok none

/-- C9: `get_agent_config` answers `None` precisely when the agent is
absent (or its entry is null), the entry is a string or dict whose
workspace expands to the empty string, the dict lacks a `workspace` key,
or the entry is of any other type; on every such input it returns rather
than raises. -/
theorem get_agent_config_none_iff (sys : Sys) (name : String)
    (agents : List (String × YVal)) :
    get_agent_config sys name agents = .ok none ↔
      (match agents.lookup name with
       | none => True
       | some .ynull => True
       | some (.ystr s) => pyExpanduser sys s = ""
       | some (.ydict l) =>
         (match l.lookup "workspace" with
          | none => True
          | some (.ystr s) => pyExpanduser sys s = ""
          | some _ => False)
       | some _ => True) := by
  unfold get_agent_config
  match h : agents.lookup name with
  | none => simp
  | some .ynull => simp
  | some (.ystr s) =>
    by_cases hw : pyExpanduser sys s = "" <;> simp [hw]
  | some (.ydict l) =>
    match hw : l.lookup "workspace" with
    | none =>
      simp [hw, show pyExpanduser sys "" = "" from rfl]
    | some (.ystr s) =>
      by_cases he : pyExpanduser sys s = "" <;> simp [hw, he]
    | some (.ynum n) => simp [hw]
    | some (.ybool b) => simp [hw]
    | some .ynull => simp [hw]
    | some (.ylist m) => simp [hw]
    | some (.ydict m) => simp [hw]
  | some (.ynum n) => simp
  | some (.ybool b) => simp
  | some (.ylist m) => simp

/-- The worker entry of the triggers test, as parsed from the YAML. -/
def workerEntryWithTriggers : YVal :=
  .ydict [("workspace", .ystr "/home/user/worker"),
          ("prompt", .ystr "Handle pending tasks."),
          ("triggers", .ylist [.ydict [("type", .ystr "c3po")],
                               .ydict [("type", .ystr "script"),
                                       ("command", .ystr "python3 check.py")]]),
          ("post_run", .ylist [.ystr "bash scripts/post.sh"])]

/-- C7 (the code at the failing input): the parsed configuration of an
agent declaring `triggers` and `post_run` is indistinguishable from the
configuration of the same agent without them — `AgentConfig` has no such
fields and `get_agent_config` reads no such keys, so the profile carries
neither triggers nor post-run hooks. -/
theorem get_agent_config_drops_triggers :
    get_agent_config sysDockerOnly "worker" [("worker", workerEntryWithTriggers)] =
      get_agent_config sysDockerOnly "worker"
        [("worker", .ydict [("workspace", .ystr "/home/user/worker"),
                            ("prompt", .ystr "Handle pending tasks.")])]
    ∧ get_agent_config sysDockerOnly "worker" [("worker", workerEntryWithTriggers)] =
        .ok (some { name := "worker", workspace := "/home/user/worker" }) :=
  ⟨rfl, rfl⟩

/-! ## Running the container -/

/-- Processes spawned by `run_container`: the container with its stdout
piped, the `format-stream` filter reading that pipe, the container run in
the foreground, and the `stop` issued by `cleanup_container`. -/
inductive ProcEvent where
  | popenPipedStdout (argv : List String)
  | popenFilter (path : String)
  | runForeground (argv : List String)
  | stopContainer (argv : List String)
  deriving DecidableEq, Repr

/-- First `--name` argument that has a following value, as scanned by the
loop at the top of `run_container`. -/
def findNameArg : List String → Option String
  | "--name" :: v :: _ => some v
  | _ :: rest => findNameArg rest
  | [] => none

/-- The path of the `format-stream` filter: `SCRIPT_DIR/format-stream`
when it exists there, else `shutil.which("format-stream")`, else the
`SCRIPT_DIR` path again. -/
def formatStreamPath (sys : Sys) : String :=
  if sys.formatStreamInScriptDir then
    sys.scriptDir ++ "/format-stream"
  else
    match sys.whichFormatStream with
    | some p => p
    | none => sys.scriptDir ++ "/format-stream"

/-- `cleanup_container`: stop the tracked container when one is tracked. -/
def cleanup_container (runtime : String) : Option String → List ProcEvent
  | some n => [.stopContainer [runtime, "stop", n]]
  | none => []

/-- What one call to `run_container` did: the processes it spawned in
order, its return value, and `_running_container` afterwards. -/
structure RunContainerResult where
  events : List ProcEvent
  exitCode : Int
  finalRunning : Option String
  deriving DecidableEq, Repr

/-- `run_container(args, stream, stream_raw)`: track the `--name` value,
then either pipe the container's stdout through the `format-stream`
filter and return the filter's exit status (`stream` and not
`stream_raw`), or run the container in the foreground and return its exit
status; either way clean up the tracked container afterwards.  The
already-detected runtime is passed in (`runtime = claude_docker.runtime`
in the source). -/
def run_container (sys : Sys) (runtime : String) (args : List String)
    (stream : Bool) (streamRaw : Bool) : RunContainerResult :=
  let named := findNameArg args
  let cmd := runtime :: args
  if stream && !streamRaw then
    { events := [.popenPipedStdout cmd, .popenFilter (formatStreamPath sys)]
        ++ cleanup_container runtime named
      exitCode := sys.filterExit
      finalRunning := none }
  else
    { events := [.runForeground cmd] ++ cleanup_container runtime named
      exitCode := sys.containerExit
      finalRunning := none }

/-- C5: with `stream=True` and `stream_raw=False` the container's stdout
is piped into the external `format-stream` filter and the filter's exit
status is returned; in each of the three other flag combinations the
container runs without the filter and its own exit status is returned. -/
theorem run_container_exit_codes (sys : Sys) (runtime : String) (args : List String) :
    run_container sys runtime args true false =
      { events := [.popenPipedStdout (runtime :: args),
                   .popenFilter (formatStreamPath sys)]
          ++ cleanup_container runtime (findNameArg args)
        exitCode := sys.filterExit
        finalRunning := none }
    ∧ run_container sys runtime args false false =
        { events := [.runForeground (runtime :: args)]
            ++ cleanup_container runtime (findNameArg args)
          exitCode := sys.containerExit
          finalRunning := none }
    ∧ run_container sys runtime args true true =
        { events := [.runForeground (runtime :: args)]
            ++ cleanup_container runtime (findNameArg args)
          exitCode := sys.containerExit
          finalRunning := none }
    ∧ run_container sys runtime args false true =
        { events := [.runForeground (runtime :: args)]
            ++ cleanup_container runtime (findNameArg args)
          exitCode := sys.containerExit
          finalRunning := none } :=
  ⟨rfl, rfl, rfl, rfl⟩

/-! ## The hand-rolled argument parser -/

/-- Python `s.startswith(p)`. -/
def strStarts (s p : String) : Bool := p.data.isPrefixOf s.data

/-- Where `main` in the hand-rolled script dispatches: `-h`/`--help`
(help printed, return 0), direct-prompt mode with the collected global
flags, a subcommand with everything after it as its arguments, or the
fall-through help with return 1 when the token stream ends without a
subcommand. -/
inductive MainOutcome where
  | helpExit
  | directPrompt (prompt : String) (globalFlags : List String)
  | subcommand (name : String) (subArgs : List String) (globalFlags : List String)
  | usageError (globalFlags : List String)
  deriving DecidableEq, BEq, Repr

/-- The token loop of `main` in the hand-rolled script, with the
`global_flags` accumulator made explicit.  Each branch mirrors one
`elif` of the source, in source order. -/
def mainLoop (globalFlags : List String) (l : List String) : MainOutcome :=
  match l with
  | [] => .usageError globalFlags
  | arg :: rest =>
    if arg = "-h" ∨ arg = "--help" then
      .helpExit
    else if arg = "-d" ∨ arg = "--dir" then
      match rest with
      | v :: rest' => mainLoop (globalFlags ++ [arg, v]) rest'
      | [] => mainLoop (globalFlags ++ [arg]) []
    else if strStarts arg "--dir=" ∨ strStarts arg "-d=" then
      mainLoop (globalFlags ++ [arg]) rest
    else if arg = "-s" ∨ arg = "-sj" ∨ arg = "--no-stream" ∨ arg = "-b" then
      mainLoop (globalFlags ++ [arg]) rest
    else if arg = "-p" then
      match rest with
      | v :: _ => .directPrompt v (globalFlags ++ [arg, v])
      | [] => mainLoop (globalFlags ++ [arg]) []
    else if arg = "setup" ∨ arg = "shell" then
      .subcommand arg rest globalFlags
    else if arg = "setup-c3po" then
      .subcommand "setup-c3po" rest globalFlags
    else if arg = "agent" then
      .subcommand "agent" rest globalFlags
    else if strStarts arg "-" then
      mainLoop (globalFlags ++ [arg]) rest
    else
      .directPrompt (String.intercalate " " (arg :: rest)) globalFlags
termination_by l.length
decreasing_by all_goals (simp_all <;> omega)

/-- `main`'s argument classification on `sys.argv[1:]`. -/
def parseMain (cmdArgs : List String) : MainOutcome :=
  mainLoop [] cmdArgs

/-- The prompt dispatched by an outcome, when one is. -/
def promptOf : MainOutcome → Option String
  | .directPrompt p _ => some p
  | _ => none

/-- Tokens the loop folds into `global_flags` in one step: they start
with `-` and are none of the specially treated flags (`-h`, `--help`,
`-d`, `--dir`, `-p`). -/
def collectible (f : String) : Bool :=
  strStarts f "-" &&
    !(f == "-h" || f == "--help" || f == "-d" || f == "--dir" || f == "-p")

/-- Starting with a longer prefix implies starting with a shorter one. -/
theorem strStarts_of_strStarts (t p q : String) (h : strStarts t p = true)
    (hq : strStarts p q = true) : strStarts t q = true := by
  simp only [strStarts, List.isPrefixOf_iff_prefix] at *
  exact hq.trans h

/-- One loop iteration on a collectible token appends it to the
accumulator and moves on. -/
theorem mainLoop_cons_collectible (gf : List String) (f : String) (rest : List String)
    (hf : collectible f = true) :
    mainLoop gf (f :: rest) = mainLoop (gf ++ [f]) rest := by
  simp only [collectible, Bool.and_eq_true, Bool.not_eq_true',
    Bool.or_eq_false_iff, beq_eq_false_iff_ne, ne_eq] at hf
  obtain ⟨hdash, ⟨⟨⟨h1, h2⟩, h3⟩, h4⟩, h5⟩ := hf
  have hsetup : f ≠ "setup" := by
    intro he; rw [he] at hdash; simp [strStarts] at hdash
  have hshell : f ≠ "shell" := by
    intro he; rw [he] at hdash; simp [strStarts] at hdash
  have hc3po : f ≠ "setup-c3po" := by
    intro he; rw [he] at hdash; simp [strStarts] at hdash
  have hagent : f ≠ "agent" := by
    intro he; rw [he] at hdash; simp [strStarts] at hdash
  rw [mainLoop.eq_def]
  dsimp only
  rw [if_neg (by simp [h1, h2]), if_neg (by simp [h3, h4])]
  by_cases hdir : strStarts f "--dir=" ∨ strStarts f "-d="
  · rw [if_pos hdir]
  · rw [if_neg hdir]
    by_cases hs : f = "-s" ∨ f = "-sj" ∨ f = "--no-stream" ∨ f = "-b"
    · rw [if_pos hs]
    · rw [if_neg hs, if_neg h5, if_neg (by simp [hsetup, hshell]),
        if_neg hc3po, if_neg hagent, if_pos hdash]

/-- A run of collectible tokens is folded into the accumulator in order,
one pass, before the rest of the stream is examined. -/
theorem mainLoop_collect (flags : List String) (gf l : List String)
    (h : ∀ f ∈ flags, collectible f = true) :
    mainLoop gf (flags ++ l) = mainLoop (gf ++ flags) l := by
  induction flags generalizing gf with
  | nil => simp
  | cons f fs ih =>
    have hf := h f (by simp)
    have hfs : ∀ g ∈ fs, collectible g = true := fun g hg => h g (by simp [hg])
    rw [List.cons_append, mainLoop_cons_collectible gf f (fs ++ l) hf, ih (gf ++ [f]) hfs,
      List.append_assoc]
    rfl

/-- C3 (counterexamples to the claim as stated): on `-p hello world` the
parser dispatches direct-prompt mode with only the single following value
`hello` as the prompt, silently discarding `world`, rather than with the
remaining tokens; `-h` is answered with help and exit rather than being
collected as a global flag; and `-d setup` consumes `setup` as the
directory value, so the first token equal to a subcommand name selects
nothing and the run ends in the usage error. -/
theorem parseMain_claim_counterexample :
    parseMain ["-p", "hello", "world"] = .directPrompt "hello" ["-p", "hello"]
    ∧ (promptOf (parseMain ["-p", "hello", "world"]) == some "hello world") = false
    ∧ parseMain ["-h"] = .helpExit
    ∧ parseMain ["-d", "setup"] = .usageError ["-d", "setup"] := by
  refine ⟨?_, ?_, ?_, ?_⟩ <;> simp +decide [parseMain, mainLoop.eq_def, promptOf]

/-- C3 (amended): the classifier makes a single left-to-right pass,
total on every input.  After any run of collectible leading `-` tokens:
a subcommand token selects that subcommand with every following token as
its argument; `-p` with a following value dispatches direct-prompt mode
with that single value as the prompt; a non-flag, non-subcommand token
dispatches direct-prompt mode with it and all remaining tokens joined by
spaces; `-h` prints help and exits; and `-d` consumes its following
value into the global flags before the scan continues. -/
theorem parseMain_classification
    (flags rest : List String) (v t sub : String)
    (hflags : ∀ f ∈ flags, collectible f = true)
    (hsub : sub = "setup" ∨ sub = "shell" ∨ sub = "setup-c3po" ∨ sub = "agent")
    (ht : strStarts t "-" = false)
    (htsub : ¬(t = "setup" ∨ t = "shell" ∨ t = "setup-c3po" ∨ t = "agent")) :
    parseMain (flags ++ sub :: rest) = .subcommand sub rest flags
    ∧ parseMain (flags ++ "-p" :: v :: rest) = .directPrompt v (flags ++ ["-p", v])
    ∧ parseMain (flags ++ t :: rest) =
        .directPrompt (String.intercalate " " (t :: rest)) flags
    ∧ parseMain (flags ++ "-h" :: rest) = .helpExit
    ∧ parseMain (flags ++ "-d" :: v :: sub :: rest) =
        .subcommand sub rest (flags ++ ["-d", v]) := by
  have hnotdash : ∀ s : String, strStarts s "-" = true → t ≠ s := by
    intro s hs he
    rw [he, hs] at ht
    cases ht
  refine ⟨?_, ?_, ?_, ?_, ?_⟩
  · rw [parseMain, mainLoop_collect flags [] (sub :: rest) hflags]
    rcases hsub with h | h | h | h <;> subst h <;> simp +decide [mainLoop.eq_def]
  · rw [parseMain, mainLoop_collect flags [] ("-p" :: v :: rest) hflags]
    simp +decide [mainLoop.eq_def]
  · rw [parseMain, mainLoop_collect flags [] (t :: rest) hflags, mainLoop.eq_def]
    dsimp only
    rw [if_neg (by rintro (h | h) <;> exact hnotdash _ (by decide) h)]
    rw [if_neg (by rintro (h | h) <;> exact hnotdash _ (by decide) h)]
    rw [if_neg (by
      rintro (h | h) <;>
        exact absurd (strStarts_of_strStarts t _ "-" h (by decide)) (by simp [ht]))]
    rw [if_neg (by rintro (h | h | h | h) <;> exact hnotdash _ (by decide) h)]
    rw [if_neg (hnotdash "-p" (by decide)), if_neg (by
      rintro (h | h)
      · exact htsub (Or.inl h)
      · exact htsub (Or.inr (Or.inl h)))]
    rw [if_neg (fun h => htsub (Or.inr (Or.inr (Or.inl h)))),
      if_neg (fun h => htsub (Or.inr (Or.inr (Or.inr h)))),
      if_neg (by simp [ht])]
    rfl
  · rw [parseMain, mainLoop_collect flags [] ("-h" :: rest) hflags]
    simp +decide [mainLoop.eq_def]
  · rw [parseMain, mainLoop_collect flags [] ("-d" :: v :: sub :: rest) hflags]
    rcases hsub with h | h | h | h <;> subst h <;> simp +decide [mainLoop.eq_def]

/-- Witness for C3's amended classification at concrete inputs. -/
theorem parseMain_classification_witness :
    parseMain ["-s", "agent", "run", "notes"] =
      .subcommand "agent" ["run", "notes"] ["-s"] :=
  (parseMain_classification ["-s"] ["run", "notes"] "x" "hello" "agent"
    (by decide) (by decide) (by decide) (by decide)).1

/-! ## Init-command encoding: `json.dumps`, UTF-8, base64 -/

/-- Lowercase hex digit, as `json.dumps` emits in `\uXXXX` escapes. -/
def hexDigitLower (n : Nat) : Char :=
  if n < 10 then Char.ofNat (48 + n) else Char.ofNat (87 + n)

/-- Four lowercase hex digits of a value below `0x10000`. -/
def hex4 (n : Nat) : List Char :=
  [hexDigitLower (n / 4096 % 16), hexDigitLower (n / 256 % 16),
   hexDigitLower (n / 16 % 16), hexDigitLower (n % 16)]

/-- How `json.dumps` (with its default `ensure_ascii=True`) writes one
character: the two-character shorthands for quote, backslash and the five
control characters that have one; `\uXXXX` for every other character
outside `0x20`–`0x7e`, with a surrogate pair above `0xffff`; the
character itself otherwise. -/
def jsonEscapeChar (c : Char) : List Char :=
  if c = '"' then ['\\', '"']
  else if c = '\\' then ['\\', '\\']
  else if c = '\n' then ['\\', 'n']
  else if c = '\t' then ['\\', 't']
  else if c = '\r' then ['\\', 'r']
  else if c = '\x08' then ['\\', 'b']
  else if c = '\x0c' then ['\\', 'f']
  else if c.toNat < 0x20 ∨ 0x7e < c.toNat then
    if c.toNat < 0x10000 then
      '\\' :: 'u' :: hex4 c.toNat
    else
      ('\\' :: 'u' :: hex4 (0xd800 + (c.toNat - 0x10000) / 0x400))
        ++ ('\\' :: 'u' :: hex4 (0xdc00 + (c.toNat - 0x10000) % 0x400))
  else [c]

/-- A JSON string literal for `s`. -/
def jsonQuote (s : String) : List Char :=
  '"' :: (s.data.flatMap jsonEscapeChar ++ ['"'])

/-- The comma-space separated item list inside the JSON array. -/
def jsonItems : List String → List Char
  | [] => []
  | [s] => jsonQuote s
  | s :: rest => jsonQuote s ++ ',' :: ' ' :: jsonItems rest

/-- `json.dumps` on a list of strings, with the default `", "` item
separator. -/
def jsonDumpsList (l : List String) : String :=
  ⟨'[' :: (jsonItems l ++ [']'])⟩

/-- UTF-8 bytes of one character. -/
def utf8EncodeChar (c : Char) : List Nat :=
  if c.toNat < 0x80 then [c.toNat]
  else if c.toNat < 0x800 then [0xc0 + c.toNat / 0x40, 0x80 + c.toNat % 0x40]
  else if c.toNat < 0x10000 then
    [0xe0 + c.toNat / 0x1000, 0x80 + c.toNat / 0x40 % 0x40, 0x80 + c.toNat % 0x40]
  else
    [0xf0 + c.toNat / 0x40000, 0x80 + c.toNat / 0x1000 % 0x40,
     0x80 + c.toNat / 0x40 % 0x40, 0x80 + c.toNat % 0x40]

/-- Python `str.encode()`: UTF-8 bytes of the string. -/
def pyEncodeUtf8 (s : String) : List Nat := s.data.flatMap utf8EncodeChar

/-- The base64 alphabet character for a six-bit value. -/
def b64Char (n : Nat) : Char :=
  if n < 26 then Char.ofNat (65 + n)
  else if n < 52 then Char.ofNat (97 + (n - 26))
  else if n < 62 then Char.ofNat (48 + (n - 52))
  else if n = 62 then '+'
  else '/'

/-- `base64.b64encode`: three bytes become four alphabet characters,
with `=` padding for a short final group. -/
def base64Encode : List Nat → List Char
  | [] => []
  | [a] => [b64Char (a / 4), b64Char (a % 4 * 16), '=', '=']
  | [a, b] => [b64Char (a / 4), b64Char (a % 4 * 16 + b / 16), b64Char (b % 16 * 4), '=']
  | a :: b :: c :: rest =>
    b64Char (a / 4) :: b64Char (a % 4 * 16 + b / 16) :: b64Char (b % 16 * 4 + c / 64)
      :: b64Char (c % 64) :: base64Encode rest

/-- `encode_init_commands`: base64 of the UTF-8 bytes of the JSON dump
of the command list (then decoded back to `str`, which the base64
alphabet makes a plain character-for-byte reading). -/
def encode_init_commands (initList : List String) : String :=
  ⟨base64Encode (pyEncodeUtf8 (jsonDumpsList initList))⟩

/-! ## Building the container argument list -/

/-- `CONFIG_DIR = Path.home() / ".claude-docker"`. -/
def CONFIG_DIR (sys : Sys) : String := sys.home ++ "/.claude-docker"

/-- `CREDENTIALS = Path.home() / ".claude" / ".credentials.json"`. -/
def CREDENTIALS (sys : Sys) : String := sys.home ++ "/.claude/.credentials.json"

/-- `TOKEN_FILE = CONFIG_DIR / ".oauth-token"`. -/
def TOKEN_FILE (sys : Sys) : String := CONFIG_DIR sys ++ "/.oauth-token"

/-- `USER_CONFIG = CONFIG_DIR / ".claude.json"`. -/
def USER_CONFIG (sys : Sys) : String := CONFIG_DIR sys ++ "/.claude.json"

/-- `DOCKER_YAML_CONFIG = CONFIG_DIR / "claude-docker.yaml"`. -/
def DOCKER_YAML_CONFIG (sys : Sys) : String := CONFIG_DIR sys ++ "/claude-docker.yaml"

/-- Truthiness of `os.environ.get(key)`: present and non-empty. -/
def pyTruthyEnv (sys : Sys) (key : String) : Bool :=
  match sys.env key with
  | none => false
  | some s => s ≠ ""

/-- Flatten a list of `(flag, value)` pairs into the flat argument list
the source builds with successive `extend(["-e", ...])` /
`extend(["-v", ...])` calls. -/
def flatPairs (ps : List (String × String)) : List String :=
  ps.flatMap fun p => [p.1, p.2]

/-- The `env_args` block of `build_docker_args`, as `(flag, value)`
pairs in source order: project name; `CLAUDE_AGENT_MODE=1` in agent
mode; the OAuth token from the environment or else the token file; the
`C3PO_DEBUG` passthrough; one pair per `agent_env` entry; and the
`AGENT_INIT` payload when `agent_init` is non-empty. -/
def envPairs (sys : Sys) (project_name : String) (agent_mode : Bool)
    (agent_env : List (String × String)) (agent_init : List String) :
    List (String × String) :=
  [("-e", "CLAUDE_PROJECT_NAME=" ++ project_name)]
  ++ (if agent_mode then [("-e", "CLAUDE_AGENT_MODE=1")] else [])
  ++ (if pyTruthyEnv sys "CLAUDE_CODE_OAUTH_TOKEN" then
        [("-e", "CLAUDE_CODE_OAUTH_TOKEN=" ++ (sys.env "CLAUDE_CODE_OAUTH_TOKEN").getD "")]
      else if sys.tokenFileFound then
        [("-e", "CLAUDE_CODE_OAUTH_TOKEN=" ++ pyStrip sys.tokenFileText)]
      else [])
  ++ (if pyTruthyEnv sys "C3PO_DEBUG" then
        [("-e", "C3PO_DEBUG=" ++ (sys.env "C3PO_DEBUG").getD "")]
      else [])
  ++ agent_env.map (fun kv => ("-e", kv.1 ++ "=" ++ kv.2))
  ++ (if agent_init.isEmpty then []
      else [("-e", "AGENT_INIT=" ++ encode_init_commands agent_init)])

/-- The `mounts` block of `build_docker_args`, as `(flag, value)` pairs
in source order. -/
def mountPairs (sys : Sys) (work_dir : String) : List (String × String) :=
  [("-v", CONFIG_DIR sys ++ ":/home/node/.claude"),
   ("-v", work_dir ++ ":/workspace")]
  ++ (if sys.credentialsFound then
        [("-v", CREDENTIALS sys ++ ":/home/node/.claude/.credentials.json:ro")]
      else [])
  ++ [("-v", DOCKER_YAML_CONFIG sys ++ ":/home/node/claude-docker.yaml")]
  ++ [("-v", USER_CONFIG sys ++ ":/home/node/.claude.json")]

/-- The `claude_args` block: the prompt is replaced by `/c3po auto` in
agent mode before being emitted; streaming prepends the stream-json
options; a truthy `agent_model` appends `--model`. -/
def claudeArgs (prompt : String) (agent_mode : Bool) (agent_model : Option String)
    (stream streamRaw : Bool) : List String :=
  let prompt := if agent_mode then "/c3po auto" else prompt
  (if stream || streamRaw then
    ["--output-format", "stream-json", "--verbose", "-p", prompt]
   else
    ["-p", prompt])
  ++ (match agent_model with
      | some m => if m = "" then [] else ["--model", m]
      | none => [])

/-- `build_docker_args`: the `docker run` argument list and the `stream`
flag, assembled exactly as in the source: `run --rm --name <name>`, the
environment pairs, the mounts, the image name, and the claude
arguments. -/
def build_docker_args (sys : Sys) (prompt work_dir project_name : String)
    (agent_mode : Bool) (agent_model : Option String)
    (agent_env : List (String × String)) (agent_init : List String)
    (stream streamRaw : Bool) : List String × Bool :=
  (["run", "--rm", "--name", "claude-code-" ++ toString sys.pid]
    ++ flatPairs (envPairs sys project_name agent_mode agent_env agent_init)
    ++ flatPairs (mountPairs sys work_dir)
    ++ [IMAGE_NAME]
    ++ claudeArgs prompt agent_mode agent_model stream streamRaw,
   stream)

/-! ## Adjacent pairs in an argument list -/

/-- Whether a list starts with the given string. -/
def headEq (b : String) : List String → Bool
  | y :: _ => y == b
  | [] => false

/-- Whether the list contains the two given strings adjacently, in
order — the shape of a `-e KEY=VALUE` or `--model m` occurrence in an
argv. -/
def hasPair (a b : String) : List String → Bool
  | [] => false
  | x :: rest => (x == a && headEq b rest) || hasPair a b rest

theorem flatPairs_cons (p : String × String) (ps : List (String × String)) :
    flatPairs (p :: ps) = p.1 :: p.2 :: flatPairs ps := by
  simp [flatPairs]

theorem flatPairs_append (ps qs : List (String × String)) :
    flatPairs (ps ++ qs) = flatPairs ps ++ flatPairs qs := by
  simp [flatPairs]

theorem headEq_append (b : String) (l₁ l₂ : List String) :
    headEq b (l₁ ++ l₂) = if l₁.isEmpty then headEq b l₂ else headEq b l₁ := by
  cases l₁ <;> simp [headEq]

/-- Adjacency over an append: a pair sits in the left part, straddles
the seam, or sits in the right part. -/
theorem hasPair_append (a b : String) (l₁ l₂ : List String) :
    hasPair a b (l₁ ++ l₂) =
      (hasPair a b l₁ || ((l₁.getLast? == some a && headEq b l₂) || hasPair a b l₂)) := by
  induction l₁ with
  | nil => simp [hasPair]
  | cons x l₁ ih =>
    cases l₁ with
    | nil => simp [hasPair, headEq]
    | cons y l₁' =>
      have e₁ : hasPair a b ((x :: y :: l₁') ++ l₂) =
          ((x == a && (y == b)) || hasPair a b ((y :: l₁') ++ l₂)) := rfl
      have e₂ : hasPair a b (x :: y :: l₁') =
          ((x == a && (y == b)) || hasPair a b (y :: l₁')) := rfl
      rw [e₁, e₂, ih, List.getLast?_cons_cons, Bool.or_assoc]

theorem hasPair_append_left (a b : String) (l₁ l₂ : List String)
    (h : hasPair a b l₁ = true) : hasPair a b (l₁ ++ l₂) = true := by
  rw [hasPair_append]; simp [h]

theorem hasPair_append_right (a b : String) (l₁ l₂ : List String)
    (h : hasPair a b l₂ = true) : hasPair a b (l₁ ++ l₂) = true := by
  rw [hasPair_append]; simp [h]

theorem hasPair_cons_of (a b x : String) (l : List String)
    (h : hasPair a b l = true) : hasPair a b (x :: l) = true := by
  simp [hasPair, h]

/-- A `(flag, value)` pair of the list appears adjacently in its
flattening. -/
theorem hasPair_flatPairs_of_mem (a b : String) (ps : List (String × String))
    (h : (a, b) ∈ ps) : hasPair a b (flatPairs ps) = true := by
  induction ps with
  | nil => cases h
  | cons p ps ih =>
    rw [flatPairs_cons]
    cases List.mem_cons.mp h with
    | inl he =>
      rw [← he]
      simp [hasPair, headEq]
    | inr hm =>
      exact hasPair_cons_of _ _ _ _ (hasPair_cons_of _ _ _ _ (ih hm))

/-- No pair can start at a string that never occurs in the list. -/
theorem hasPair_eq_false_of_not_mem (a b : String) (l : List String)
    (h : ∀ x ∈ l, (x == a) = false) : hasPair a b l = false := by
  induction l with
  | nil => rfl
  | cons x l ih =>
    simp [hasPair, h x (by simp), ih fun y hy => h y (by simp [hy])]

/-- Flattened pairs hold no `(a, b)` adjacency when no value equals
either `a` or `b`: the flag/value adjacency would need the value to be
`b`, and the value/flag adjacency would need the value to be `a`. -/
theorem hasPair_flatPairs_false (a b : String) (ps : List (String × String))
    (hne : ∀ p ∈ ps, (p.2 == a) = false) (hnb : ∀ p ∈ ps, (p.2 == b) = false) :
    hasPair a b (flatPairs ps) = false := by
  induction ps with
  | nil => rfl
  | cons p ps ih =>
    rw [flatPairs_cons]
    have h₁ := hne p (by simp)
    have h₂ := hnb p (by simp)
    simp [hasPair, headEq, h₁, h₂,
      ih (fun q hq => hne q (by simp [hq])) (fun q hq => hnb q (by simp [hq]))]

/-- Every element of a flattening is a flag or a value of some pair. -/
theorem mem_flatPairs (x : String) (ps : List (String × String))
    (h : x ∈ flatPairs ps) : ∃ p ∈ ps, x = p.1 ∨ x = p.2 := by
  induction ps with
  | nil => cases h
  | cons p ps ih =>
    rw [flatPairs_cons] at h
    rcases List.mem_cons.mp h with h1 | h'
    · exact ⟨p, by simp, Or.inl h1⟩
    rcases List.mem_cons.mp h' with h2 | hm
    · exact ⟨p, by simp, Or.inr h2⟩
    obtain ⟨q, hq, hx⟩ := ih hm
    exact ⟨q, by simp [hq], hx⟩

/-- Strings whose first characters differ are distinct. -/
theorem beq_false_of_head_ne (a b : String)
    (h : a.data.head? ≠ b.data.head?) : (a == b) = false := by
  rw [beq_eq_false_iff_ne]
  intro he
  exact h (congrArg (fun x => x.data.head?) he)

/-- A string containing a character the other lacks is distinct from
it. -/
theorem beq_false_of_char_mem (s b : String) (c : Char) (hs : c ∈ s.data)
    (hb : c ∉ b.data) : (s == b) = false := by
  rw [beq_eq_false_iff_ne]
  intro he
  exact hb (he ▸ hs)

/-- The head of `p ++ s` is the head of a non-empty `p`. -/
theorem head_data_append (p s : String) (hp : p.data ≠ []) :
    (p ++ s).data.head? = p.data.head? :=
  List.head?_append_of_ne_nil _ hp

/-- A `KEY=VALUE` environment entry whose key does not itself begin with
`AGENT_INIT` can never collide with the `AGENT_INIT=` payload entry. -/
theorem kv_ne_agent_init (k v e : String)
    (hk : strStarts k "AGENT_INIT" = false) :
    ((k ++ "=" ++ v) == ("AGENT_INIT=" ++ e)) = false := by
  rw [beq_eq_false_iff_ne]
  intro he
  have hd : k.data ++ ('=' :: v.data) = "AGENT_INIT".data ++ ('=' :: e.data) := by
    have := congrArg String.data he
    simpa using this
  have hpre : ¬ ("AGENT_INIT".data <+: k.data) := by
    intro hp
    rw [show strStarts k "AGENT_INIT" = "AGENT_INIT".data.isPrefixOf k.data from rfl,
      List.isPrefixOf_iff_prefix.mpr hp] at hk
    cases hk
  rcases List.append_eq_append_iff.mp hd with ⟨a', h1, _h2⟩ | ⟨c', h1, _h2⟩
  · cases a' with
    | nil =>
      exact hpre (by rw [h1, List.append_nil])
    | cons x a'' =>
      have hmem : x ∈ "AGENT_INIT".data := by
        rw [h1]; exact List.mem_append_right _ (by simp)
      have hx : x = '=' := by
        have := congrArg List.head? _h2
        simpa using this.symm
      rw [hx] at hmem
      exact absurd hmem (by decide)
  · exact hpre ⟨c', h1.symm⟩

/-- Truthiness of an `Optional[str]`: present and non-empty. -/
def pyTruthyOptStr : Option String → Bool
  | none => false
  | some s => s ≠ ""

/-- Every value in the `env_args` block contains an `=`. -/
theorem envPairs_snd_has_eq (sys : Sys) (pn : String) (mode : Bool)
    (env : List (String × String)) (init : List String) :
    ∀ p ∈ envPairs sys pn mode env init, '=' ∈ p.2.data := by
  intro p hp
  simp only [envPairs, List.append_assoc, List.mem_append] at hp
  rcases hp with h | h | h | h | h | h
  · simp only [List.mem_singleton] at h
    subst h
    exact List.mem_append_left _ (by decide)
  · split at h
    · simp only [List.mem_singleton] at h
      subst h
      decide
    · cases h
  · split at h
    · simp only [List.mem_singleton] at h
      subst h
      exact List.mem_append_left _ (by decide)
    · split at h
      · simp only [List.mem_singleton] at h
        subst h
        exact List.mem_append_left _ (by decide)
      · cases h
  · split at h
    · simp only [List.mem_singleton] at h
      subst h
      exact List.mem_append_left _ (by decide)
    · cases h
  · obtain ⟨kv, _, he⟩ := List.mem_map.mp h
    subst he
    exact List.mem_append_left _ (List.mem_append_right _ (by simp))
  · split at h
    · cases h
    · simp only [List.mem_singleton] at h
      subst h
      exact List.mem_append_left _ (by decide)

/-- With no `agent_init` payload and no env key starting with
`AGENT_INIT`, no value in the `env_args` block is an `AGENT_INIT=`
string. -/
theorem envPairs_snd_ne_agent_init (sys : Sys) (pn : String) (mode : Bool)
    (env : List (String × String)) (e : String)
    (hkeys : ∀ kv ∈ env, strStarts kv.1 "AGENT_INIT" = false) :
    ∀ p ∈ envPairs sys pn mode env [], (p.2 == ("AGENT_INIT=" ++ e)) = false := by
  have hA : ("AGENT_INIT=" ++ e).data.head? = some 'A' := by
    rw [head_data_append _ _ (by decide)]
    decide
  intro p hp
  simp only [envPairs, List.append_assoc, List.mem_append] at hp
  rcases hp with h | h | h | h | h | h
  · simp only [List.mem_singleton] at h
    subst h
    exact beq_false_of_head_ne _ _ (by rw [head_data_append _ _ (by decide), hA]; decide)
  · split at h
    · simp only [List.mem_singleton] at h
      subst h
      exact beq_false_of_head_ne _ _ (by rw [hA]; decide)
    · cases h
  · split at h
    · simp only [List.mem_singleton] at h
      subst h
      exact beq_false_of_head_ne _ _ (by rw [head_data_append _ _ (by decide), hA]; decide)
    · split at h
      · simp only [List.mem_singleton] at h
        subst h
        exact beq_false_of_head_ne _ _ (by rw [head_data_append _ _ (by decide), hA]; decide)
      · cases h
  · split at h
    · simp only [List.mem_singleton] at h
      subst h
      exact beq_false_of_head_ne _ _ (by rw [head_data_append _ _ (by decide), hA]; decide)
    · cases h
  · obtain ⟨kv, hkv, he⟩ := List.mem_map.mp h
    subst he
    exact kv_ne_agent_init _ _ _ (hkeys kv hkv)
  · simp at h

/-- Every mount value contains a `:`. -/
theorem mountPairs_snd_has_colon (sys : Sys) (wd : String) :
    ∀ p ∈ mountPairs sys wd, ':' ∈ p.2.data := by
  intro p hp
  simp only [mountPairs, List.append_assoc, List.mem_append] at hp
  rcases hp with h | h | h | h
  · simp only [List.mem_cons, List.mem_singleton, List.not_mem_nil, or_false] at h
    rcases h with h | h <;> subst h <;> exact List.mem_append_right _ (by decide)
  · split at h
    · simp only [List.mem_singleton] at h
      subst h
      exact List.mem_append_right _ (by decide)
    · cases h
  · simp only [List.mem_singleton] at h
    subst h
    exact List.mem_append_right _ (by decide)
  · simp only [List.mem_singleton] at h
    subst h
    exact List.mem_append_right _ (by decide)

/-- Every flag in the `env_args` block is `-e`. -/
theorem envPairs_fst (sys : Sys) (pn : String) (mode : Bool)
    (env : List (String × String)) (init : List String) :
    ∀ p ∈ envPairs sys pn mode env init, p.1 = "-e" := by
  intro p hp
  simp only [envPairs, List.append_assoc, List.mem_append] at hp
  rcases hp with h | h | h | h | h | h
  · simp only [List.mem_singleton] at h; subst h; rfl
  · split at h
    · simp only [List.mem_singleton] at h; subst h; rfl
    · cases h
  · split at h
    · simp only [List.mem_singleton] at h; subst h; rfl
    · split at h
      · simp only [List.mem_singleton] at h; subst h; rfl
      · cases h
  · split at h
    · simp only [List.mem_singleton] at h; subst h; rfl
    · cases h
  · obtain ⟨kv, _, he⟩ := List.mem_map.mp h
    subst he; rfl
  · split at h
    · cases h
    · simp only [List.mem_singleton] at h; subst h; rfl

/-- Every flag in the `mounts` block is `-v`. -/
theorem mountPairs_fst (sys : Sys) (wd : String) :
    ∀ p ∈ mountPairs sys wd, p.1 = "-v" := by
  intro p hp
  simp only [mountPairs, List.append_assoc, List.mem_append] at hp
  rcases hp with h | h | h | h
  · simp only [List.mem_cons, List.mem_singleton, List.not_mem_nil, or_false] at h
    rcases h with h | h <;> subst h <;> rfl
  · split at h
    · simp only [List.mem_singleton] at h; subst h; rfl
    · cases h
  · simp only [List.mem_singleton] at h; subst h; rfl
  · simp only [List.mem_singleton] at h; subst h; rfl

/-- C4: with `agent_mode=True`, the returned container argument list
carries `-e CLAUDE_AGENT_MODE=1`; one `-e KEY=VALUE` pair for every
`agent_env` entry; an `-e AGENT_INIT=<base64 JSON>` pair exactly when the
init list is non-empty (given that no env key itself begins with
`AGENT_INIT`); `--model <m>` exactly when a model is configured (a truthy
`agent_model`); and the preset `/c3po auto` as the `-p` argument, whatever
prompt was passed in. -/
theorem build_docker_args_agent_mode
    (sys : Sys) (prompt work_dir project_name : String)
    (agent_model : Option String) (agent_env : List (String × String))
    (agent_init : List String) (stream streamRaw : Bool)
    (hkeys : ∀ kv ∈ agent_env, strStarts kv.1 "AGENT_INIT" = false) :
    hasPair "-e" "CLAUDE_AGENT_MODE=1"
      (build_docker_args sys prompt work_dir project_name true agent_model
        agent_env agent_init stream streamRaw).1 = true
    ∧ (∀ kv ∈ agent_env,
        hasPair "-e" (kv.1 ++ "=" ++ kv.2)
          (build_docker_args sys prompt work_dir project_name true agent_model
            agent_env agent_init stream streamRaw).1 = true)
    ∧ hasPair "-e" ("AGENT_INIT=" ++ encode_init_commands agent_init)
        (build_docker_args sys prompt work_dir project_name true agent_model
          agent_env agent_init stream streamRaw).1 = !agent_init.isEmpty
    ∧ (∀ m, agent_model = some m → m ≠ "" →
        hasPair "--model" m
          (build_docker_args sys prompt work_dir project_name true agent_model
            agent_env agent_init stream streamRaw).1 = true)
    ∧ (pyTruthyOptStr agent_model = false →
        ∀ m, hasPair "--model" m
          (build_docker_args sys prompt work_dir project_name true agent_model
            agent_env agent_init stream streamRaw).1 = false)
    ∧ hasPair "-p" "/c3po auto"
        (build_docker_args sys prompt work_dir project_name true agent_model
          agent_env agent_init stream streamRaw).1 = true := by
  have hargs : (build_docker_args sys prompt work_dir project_name true agent_model
      agent_env agent_init stream streamRaw).1
      = ["run", "--rm", "--name", "claude-code-" ++ toString sys.pid]
        ++ flatPairs (envPairs sys project_name true agent_env agent_init)
        ++ flatPairs (mountPairs sys work_dir)
        ++ [IMAGE_NAME]
        ++ claudeArgs prompt true agent_model stream streamRaw := rfl
  have hcname : (("claude-code-" ++ toString sys.pid) == "-e") = false :=
    beq_false_of_head_ne _ _ (by rw [head_data_append _ _ (by decide)]; decide)
  have hcnameM : (("claude-code-" ++ toString sys.pid) == "--model") = false :=
    beq_false_of_head_ne _ _ (by rw [head_data_append _ _ (by decide)]; decide)
  have posE : ∀ b, ("-e", b) ∈ envPairs sys project_name true agent_env agent_init →
      hasPair "-e" b (build_docker_args sys prompt work_dir project_name true
        agent_model agent_env agent_init stream streamRaw).1 = true := by
    intro b hb
    rw [hargs]
    exact hasPair_append_left _ _ _ _ (hasPair_append_left _ _ _ _
      (hasPair_append_left _ _ _ _ (hasPair_append_right _ _ _ _
        (hasPair_flatPairs_of_mem _ _ _ hb))))
  refine ⟨?_, ?_, ?_, ?_, ?_, ?_⟩
  · exact posE _ (List.mem_append_left _ (List.mem_append_left _
      (List.mem_append_left _ (List.mem_append_left _
        (List.mem_append_right _ (by simp))))))
  · intro kv hkv
    exact posE _ (List.mem_append_left _ (List.mem_append_right _
      (List.mem_map_of_mem _ hkv)))
  · cases hinit : agent_init.isEmpty
    · rw [Bool.not_false]
      exact posE _ (List.mem_append_right _ (by simp [hinit]))
    · have hnil : agent_init = [] := List.isEmpty_iff.mp hinit
      subst hnil
      rw [Bool.not_true, hargs]
      rw [hasPair_append, hasPair_append, hasPair_append, hasPair_append]
      have h1 : hasPair "-e" ("AGENT_INIT=" ++ encode_init_commands [])
          ["run", "--rm", "--name", "claude-code-" ++ toString sys.pid] = false := by
        apply hasPair_eq_false_of_not_mem
        intro x hx
        simp only [List.mem_cons, List.not_mem_nil, or_false] at hx
        rcases hx with h | h | h | h <;> subst h
        · decide
        · decide
        · decide
        · exact hcname
      have h2 : hasPair "-e" ("AGENT_INIT=" ++ encode_init_commands [])
          (flatPairs (envPairs sys project_name true agent_env [])) = false := by
        apply hasPair_flatPairs_false
        · intro p hp
          exact beq_false_of_char_mem _ _ '='
            (envPairs_snd_has_eq sys project_name true agent_env [] p hp) (by decide)
        · exact envPairs_snd_ne_agent_init sys project_name true agent_env _ hkeys
      have h3 : hasPair "-e" ("AGENT_INIT=" ++ encode_init_commands [])
          (flatPairs (mountPairs sys work_dir)) = false := by
        apply hasPair_flatPairs_false
        · intro p hp
          exact beq_false_of_char_mem _ _ ':'
            (mountPairs_snd_has_colon sys work_dir p hp) (by decide)
        · intro p hp
          exact beq_false_of_char_mem _ _ ':'
            (mountPairs_snd_has_colon sys work_dir p hp) (by decide)
      have h4 : hasPair "-e" ("AGENT_INIT=" ++ encode_init_commands [])
          [IMAGE_NAME] = false := by decide
      have h5 : hasPair "-e" ("AGENT_INIT=" ++ encode_init_commands [])
          (claudeArgs prompt true agent_model stream streamRaw) = false := by
        have hmp : ∀ mp : List String, mp = [] ∨
            (∃ m, mp = ["--model", m]) →
            hasPair "-e" ("AGENT_INIT=" ++ encode_init_commands [])
              ((if stream || streamRaw then
                  ["--output-format", "stream-json", "--verbose", "-p", "/c3po auto"]
                else ["-p", "/c3po auto"]) ++ mp) = false := by
          rintro mp (rfl | ⟨m, rfl⟩) <;> cases hsr : (stream || streamRaw) <;>
            simp +decide [hsr, hasPair, headEq]
        rcases agent_model with _ | m
        · exact hmp [] (Or.inl rfl)
        · by_cases hm : m = ""
          · simpa [claudeArgs, hm] using hmp [] (Or.inl rfl)
          · simpa [claudeArgs, hm] using hmp ["--model", m] (Or.inr ⟨m, rfl⟩)
      have hE : headEq ("AGENT_INIT=" ++ encode_init_commands [])
          (flatPairs (envPairs sys project_name true agent_env [])) = false := by
        simp +decide [envPairs, flatPairs, headEq]
      have hM : headEq ("AGENT_INIT=" ++ encode_init_commands [])
          (flatPairs (mountPairs sys work_dir)) = false := by
        simp +decide [mountPairs, flatPairs, headEq]
      have hI : headEq ("AGENT_INIT=" ++ encode_init_commands [])
          [IMAGE_NAME] = false := by decide
      have hC : headEq ("AGENT_INIT=" ++ encode_init_commands [])
          (claudeArgs prompt true agent_model stream streamRaw) = false := by
        cases hsr : (stream || streamRaw) <;>
          rcases agent_model with _ | m <;>
            simp +decide [claudeArgs, hsr, headEq]
      simp [h1, h2, h3, h4, h5, hE, hM, hI, hC]
  · intro m hm hne
    subst hm
    rw [hargs]
    apply hasPair_append_right
    cases hsr : (stream || streamRaw) <;>
      simp +decide [claudeArgs, hsr, hne, hasPair, headEq]
  · intro hfalsy m
    apply hasPair_eq_false_of_not_mem
    intro x hx
    rw [hargs] at hx
    simp only [List.mem_append] at hx
    rcases hx with ((((hx | hx) | hx) | hx) | hx)
    · simp only [List.mem_cons, List.not_mem_nil, or_false] at hx
      rcases hx with h | h | h | h <;> subst h
      · decide
      · decide
      · decide
      · exact hcnameM
    · obtain ⟨p, hp, hor⟩ := mem_flatPairs _ _ hx
      rcases hor with h | h <;> subst h
      · rw [envPairs_fst sys project_name true agent_env agent_init p hp]
        decide
      · exact beq_false_of_char_mem _ _ '='
          (envPairs_snd_has_eq sys project_name true agent_env agent_init p hp)
          (by decide)
    · obtain ⟨p, hp, hor⟩ := mem_flatPairs _ _ hx
      rcases hor with h | h <;> subst h
      · rw [mountPairs_fst sys work_dir p hp]
        decide
      · exact beq_false_of_char_mem _ _ ':'
          (mountPairs_snd_has_colon sys work_dir p hp) (by decide)
    · simp only [List.mem_singleton] at hx
      subst hx
      decide
    · have hx' : x ∈ (if stream || streamRaw then
          ["--output-format", "stream-json", "--verbose", "-p", "/c3po auto"]
        else ["-p", "/c3po auto"]) ++ ([] : List String) := by
        rcases agent_model with _ | s
        · exact hx
        · have hs : s = "" := by
            simp [pyTruthyOptStr] at hfalsy
            exact hfalsy
          simpa [claudeArgs, hs] using hx
      rw [List.append_nil] at hx'
      cases hsr : (stream || streamRaw)
      · rw [hsr] at hx'
        simp only [Bool.false_eq_true, if_false, List.mem_cons,
          List.not_mem_nil, or_false] at hx'
        rcases hx' with h | h <;> subst h <;> decide
      · rw [hsr] at hx'
        simp only [if_true, List.mem_cons, List.not_mem_nil, or_false] at hx'
        rcases hx' with h | h | h | h | h <;> subst h <;> decide
  · rw [hargs]
    apply hasPair_append_right
    rcases agent_model with _ | m
    · cases hsr : (stream || streamRaw) <;>
        simp +decide [claudeArgs, hsr, hasPair, headEq]
    · by_cases hm : m = "" <;> cases hsr : (stream || streamRaw) <;>
        simp +decide [claudeArgs, hsr, hm, hasPair, headEq]

/-- Witness for C4 at a concrete agent configuration. -/
theorem build_docker_args_agent_mode_witness :
    hasPair "-e" "CLAUDE_AGENT_MODE=1"
      (build_docker_args sysDockerOnly "x" "/w" "proj" true (some "opus")
        [("K", "V")] ["i1"] true false).1 = true :=
  (build_docker_args_agent_mode sysDockerOnly "x" "/w" "proj" (some "opus")
    [("K", "V")] ["i1"] true false (by decide)).1

/-! ## Init-command decoding: base64, UTF-8, `json.loads` -/

/-- Value of a base64 alphabet character. -/
def b64Val (c : Char) : Option Nat :=
  if 'A' ≤ c ∧ c ≤ 'Z' then some (c.toNat - 65)
  else if 'a' ≤ c ∧ c ≤ 'z' then some (c.toNat - 97 + 26)
  else if '0' ≤ c ∧ c ≤ '9' then some (c.toNat - 48 + 52)
  else if c = '+' then some 62
  else if c = '/' then some 63
  else none

/-- `base64.b64decode`: four alphabet characters back to three bytes,
with `=`-padded final groups; anything else (wrong length, bad
character, an interior padded group) is the `binascii` error, `none`
here. -/
def base64Decode : List Char → Option (List Nat)
  | [] => some []
  | c1 :: c2 :: c3 :: c4 :: rest =>
    if c3 = '=' ∧ c4 = '=' ∧ rest = [] then
      match b64Val c1, b64Val c2 with
      | some a, some b => some [a * 4 + b / 16]
      | _, _ => none
    else if c4 = '=' ∧ rest = [] then
      match b64Val c1, b64Val c2, b64Val c3 with
      | some a, some b, some c => some [a * 4 + b / 16, b % 16 * 16 + c / 4]
      | _, _, _ => none
    else
      match b64Val c1, b64Val c2, b64Val c3, b64Val c4, base64Decode rest with
      | some a, some b, some c, some d, some tail =>
        some ((a * 4 + b / 16) :: (b % 16 * 16 + c / 4) :: (c % 4 * 64 + d) :: tail)
      | _, _, _, _, _ => none
  | _ => none

mutual

/-- A UTF-8 decoder (`bytes.decode()`): one to four byte sequences with
the usual range, overlong, and surrogate checks, split by sequence
length. -/
def utf8Decode (l : List Nat) : Option (List Char) :=
  match l with
  | [] => some []
  | b :: rest =>
    if b < 0x80 then (utf8Decode rest).map (Char.ofNat b :: ·)
    else if b < 0xc2 then none
    else if b < 0xe0 then utf8Dec2 b rest
    else if b < 0xf0 then utf8Dec3 b rest
    else if b < 0xf5 then utf8Dec4 b rest
    else none
termination_by l.length
decreasing_by all_goals (simp_all <;> omega)

/-- Continuation of a two-byte sequence with lead byte `b`. -/
def utf8Dec2 (b : Nat) (l : List Nat) : Option (List Char) :=
  match l with
  | b1 :: rest =>
    if 0x80 ≤ b1 ∧ b1 < 0xc0 then
      (utf8Decode rest).map (Char.ofNat ((b - 0xc0) * 0x40 + (b1 - 0x80)) :: ·)
    else none
  | [] => none
termination_by l.length
decreasing_by all_goals (simp_all <;> omega)

/-- Continuation of a three-byte sequence with lead byte `b`. -/
def utf8Dec3 (b : Nat) (l : List Nat) : Option (List Char) :=
  match l with
  | b1 :: b2 :: rest =>
    if (0x80 ≤ b1 ∧ b1 < 0xc0) ∧ (0x80 ≤ b2 ∧ b2 < 0xc0)
        ∧ (b = 0xe0 → 0xa0 ≤ b1) ∧ (b = 0xed → b1 < 0xa0) then
      (utf8Decode rest).map
        (Char.ofNat ((b - 0xe0) * 0x1000 + (b1 - 0x80) * 0x40 + (b2 - 0x80)) :: ·)
    else none
  | _ => none
termination_by l.length
decreasing_by all_goals (simp_all <;> omega)

/-- Continuation of a four-byte sequence with lead byte `b`. -/
def utf8Dec4 (b : Nat) (l : List Nat) : Option (List Char) :=
  match l with
  | b1 :: b2 :: b3 :: rest =>
    if (0x80 ≤ b1 ∧ b1 < 0xc0) ∧ (0x80 ≤ b2 ∧ b2 < 0xc0) ∧ (0x80 ≤ b3 ∧ b3 < 0xc0)
        ∧ (b = 0xf0 → 0x90 ≤ b1) ∧ (b = 0xf4 → b1 < 0x90) then
      (utf8Decode rest).map
        (Char.ofNat ((b - 0xf0) * 0x40000 + (b1 - 0x80) * 0x1000
          + (b2 - 0x80) * 0x40 + (b3 - 0x80)) :: ·)
    else none
  | _ => none
termination_by l.length
decreasing_by all_goals (simp_all <;> omega)

end

/-- Value of one hex digit, either case (`json.loads` accepts both). -/
def parseHex (c : Char) : Option Nat :=
  if '0' ≤ c ∧ c ≤ '9' then some (c.toNat - 48)
  else if 'a' ≤ c ∧ c ≤ 'f' then some (c.toNat - 87)
  else if 'A' ≤ c ∧ c ≤ 'F' then some (c.toNat - 55)
  else none

/-- JSON whitespace before/between tokens. -/
def skipWs : List Char → List Char
  | c :: rest =>
    if c = ' ' ∨ c = '\t' ∨ c = '\n' ∨ c = '\r' then skipWs rest else c :: rest
  | [] => []

mutual

/-- Inside a JSON array, expecting the opening quote of the next string
item (whitespace allowed).  Models the relevant slice of `json.loads`:
the program only ever decodes arrays of strings, and a document of any
other shape is rejected.  One divergence from CPython is that a lone
surrogate escape is rejected rather than smuggled into the result, since
a Lean `Char` cannot hold one; the encoder never emits one. -/
def parseItemStart (out : List String) (l : List Char) : Option (List String) :=
  match l with
  | c :: rest =>
    if c = ' ' ∨ c = '\t' ∨ c = '\n' ∨ c = '\r' then parseItemStart out rest
    else if c = '"' then parseInString [] out rest
    else none
  | [] => none
termination_by l.length
decreasing_by all_goals (simp_all <;> omega)

/-- The value of four hex digits. -/
def hex4Val (h1 h2 h3 h4 : Char) : Option Nat :=
  match parseHex h1, parseHex h2, parseHex h3, parseHex h4 with
  | some n1, some n2, some n3, some n4 => some (n1 * 4096 + n2 * 256 + n3 * 16 + n4)
  | _, _, _, _ => none

/-- Inside a string literal: ordinary characters, escapes (handled by
`parseEscape`), and the closing quote. -/
def parseInString (acc : List Char) (out : List String) (l : List Char) :
    Option (List String) :=
  match l with
  | [] => none
  | c :: rest =>
    if c = '"' then parseAfterItem (out ++ [String.mk acc]) rest
    else if c = '\\' then parseEscape acc out rest
    else if c.toNat < 0x20 then none
    else parseInString (acc ++ [c]) out rest
termination_by l.length
decreasing_by all_goals (simp_all <;> omega)

/-- After a backslash: the short escapes and `\uXXXX`. -/
def parseEscape (acc : List Char) (out : List String) (l : List Char) :
    Option (List String) :=
  match l with
  | [] => none
  | e :: rest =>
    if e = 'u' then parseUnicode acc out rest
    else if e = '"' then parseInString (acc ++ ['"']) out rest
    else if e = '\\' then parseInString (acc ++ ['\\']) out rest
    else if e = '/' then parseInString (acc ++ ['/']) out rest
    else if e = 'b' then parseInString (acc ++ ['\x08']) out rest
    else if e = 'f' then parseInString (acc ++ ['\x0c']) out rest
    else if e = 'n' then parseInString (acc ++ ['\n']) out rest
    else if e = 'r' then parseInString (acc ++ ['\r']) out rest
    else if e = 't' then parseInString (acc ++ ['\t']) out rest
    else none
termination_by l.length
decreasing_by all_goals (simp_all <;> omega)

/-- After `\u`: four hex digits, a high surrogate opening a pair
(continued by `parseLowSurrogate`), or a BMP scalar.  A lone surrogate is
rejected — a Lean `Char` cannot hold one — where CPython would smuggle it
through; the encoder never emits one. -/
def parseUnicode (acc : List Char) (out : List String) (l : List Char) :
    Option (List String) :=
  match l with
  | h1 :: h2 :: h3 :: h4 :: rest =>
    match hex4Val h1 h2 h3 h4 with
    | none => none
    | some n =>
      if 0xd800 ≤ n ∧ n < 0xdc00 then parseLowSurrogate n acc out rest
      else if 0xdc00 ≤ n ∧ n < 0xe000 then none
      else parseInString (acc ++ [Char.ofNat n]) out rest
  | _ => none
termination_by l.length
decreasing_by all_goals (simp_all <;> omega)

/-- The `\uXXXX` low half completing a surrogate pair whose high half
decoded to `n`. -/
def parseLowSurrogate (n : Nat) (acc : List Char) (out : List String)
    (l : List Char) : Option (List String) :=
  match l with
  | s1 :: s2 :: k1 :: k2 :: k3 :: k4 :: rest =>
    if s1 = '\\' ∧ s2 = 'u' then
      match hex4Val k1 k2 k3 k4 with
      | none => none
      | some m =>
        if 0xdc00 ≤ m ∧ m < 0xe000 then
          parseInString
            (acc ++ [Char.ofNat (0x10000 + (n - 0xd800) * 0x400 + (m - 0xdc00))])
            out rest
        else none
    else none
  | _ => none
termination_by l.length
decreasing_by all_goals (simp_all <;> omega)

/-- After a completed string item: a comma introduces the next item, a
closing bracket ends the array (only whitespace may follow the
document). -/
def parseAfterItem (out : List String) (l : List Char) : Option (List String) :=
  match l with
  | c :: rest =>
    if c = ' ' ∨ c = '\t' ∨ c = '\n' ∨ c = '\r' then parseAfterItem out rest
    else if c = ',' then parseItemStart out rest
    else if c = ']' then if (skipWs rest).isEmpty then some out else none
    else none
  | [] => none
termination_by l.length
decreasing_by all_goals (simp_all <;> omega)

end

/-- `json.loads` restricted to the array-of-strings documents this
program produces and consumes. -/
def jsonLoadsStrings (s : String) : Option (List String) :=
  match skipWs s.data with
  | c :: rest =>
    if c = '[' then
      match skipWs rest with
      | d :: r2 =>
        if d = ']' then (if (skipWs r2).isEmpty then some [] else none)
        else parseItemStart [] rest
      | [] => parseItemStart [] rest
    else none
  | [] => none

/-- Python `bytes.decode()` (UTF-8). -/
def pyDecodeUtf8 (bytes : List Nat) : Option String :=
  (utf8Decode bytes).map String.mk

/-- `decode_init_commands`: base64-decode, UTF-8-decode, `json.loads`.
`none` stands for the exception any of the three stages raises on bad
input. -/
def decode_init_commands (encoded : String) : Option (List String) := do
  let bytes ← base64Decode encoded.data
  let json ← pyDecodeUtf8 bytes
  jsonLoadsStrings json

/-! ## The decode/encode roundtrip -/

theorem b64Val_b64Char : ∀ n < 64, b64Val (b64Char n) = some n := by decide

theorem b64Char_ne_pad : ∀ n < 64, b64Char n ≠ '=' := by decide

/-- Base64 decoding undoes base64 encoding on byte lists. -/
theorem base64_roundtrip : ∀ (bytes : List Nat), (∀ x ∈ bytes, x < 256) →
    base64Decode (base64Encode bytes) = some bytes
  | [], _ => rfl
  | [a], h => by
    have ha : a < 256 := h a (by simp)
    rw [show base64Encode [a] = [b64Char (a / 4), b64Char (a % 4 * 16), '=', '='] from rfl]
    simp only [base64Decode]
    rw [if_pos (by simp), b64Val_b64Char _ (by omega), b64Val_b64Char _ (by omega)]
    simp only [Option.some.injEq, List.cons.injEq, and_true]
    omega
  | [a, b], h => by
    have ha : a < 256 := h a (by simp)
    have hb : b < 256 := h b (by simp)
    rw [show base64Encode [a, b] =
      [b64Char (a / 4), b64Char (a % 4 * 16 + b / 16), b64Char (b % 16 * 4), '='] from rfl]
    simp only [base64Decode]
    rw [if_neg fun hc => b64Char_ne_pad _ (by omega) hc.1, if_pos (by simp),
      b64Val_b64Char _ (by omega), b64Val_b64Char _ (by omega), b64Val_b64Char _ (by omega)]
    simp only [Option.some.injEq, List.cons.injEq, and_true]
    exact ⟨by omega, by omega⟩
  | a :: b :: c :: rest, h => by
    have ha : a < 256 := h a (by simp)
    have hb : b < 256 := h b (by simp)
    have hc : c < 256 := h c (by simp)
    have ih := base64_roundtrip rest fun x hx => h x (by simp [hx])
    rw [show base64Encode (a :: b :: c :: rest) =
      b64Char (a / 4) :: b64Char (a % 4 * 16 + b / 16) :: b64Char (b % 16 * 4 + c / 64)
        :: b64Char (c % 64) :: base64Encode rest from rfl]
    simp only [base64Decode]
    rw [if_neg fun hx => b64Char_ne_pad _ (by omega) hx.1,
      if_neg fun hx => b64Char_ne_pad _ (by omega) hx.1,
      b64Val_b64Char _ (by omega), b64Val_b64Char _ (by omega),
      b64Val_b64Char _ (by omega), b64Val_b64Char _ (by omega), ih]
    simp only [Option.some.injEq, List.cons.injEq, and_true]
    exact ⟨by omega, by omega, by omega⟩

/-- Every byte the UTF-8 encoder emits fits in a byte. -/
theorem utf8EncodeChar_lt (ch : Char) : ∀ x ∈ utf8EncodeChar ch, x < 256 := by
  intro x hx
  have hv : ch.toNat < 0xd800 ∨ (0xdfff < ch.toNat ∧ ch.toNat < 0x110000) := ch.valid
  simp only [utf8EncodeChar] at hx
  split at hx <;> [skip; split at hx] <;> [skip; skip; split at hx] <;>
    simp only [List.mem_cons, List.not_mem_nil, or_false] at hx <;>
      rcases hx with rfl | rfl | rfl | rfl | hx <;> omega

theorem utf8Decode_one (b : Nat) (rest : List Nat) (h : b < 0x80) :
    utf8Decode (b :: rest) = (utf8Decode rest).map (Char.ofNat b :: ·) := by
  rw [utf8Decode.eq_def]
  dsimp only
  rw [if_pos h]

theorem utf8Decode_two (b b1 : Nat) (rest : List Nat) (hb : 0xc2 ≤ b) (hb' : b < 0xe0)
    (h1 : 0x80 ≤ b1 ∧ b1 < 0xc0) :
    utf8Decode (b :: b1 :: rest)
      = (utf8Decode rest).map (Char.ofNat ((b - 0xc0) * 0x40 + (b1 - 0x80)) :: ·) := by
  rw [utf8Decode.eq_def]
  dsimp only
  rw [if_neg (by omega), if_neg (by omega), if_pos hb', utf8Dec2.eq_def]
  dsimp only
  rw [if_pos h1]

theorem utf8Decode_three (b b1 b2 : Nat) (rest : List Nat) (hb : 0xe0 ≤ b) (hb' : b < 0xf0)
    (hc : (0x80 ≤ b1 ∧ b1 < 0xc0) ∧ (0x80 ≤ b2 ∧ b2 < 0xc0)
      ∧ (b = 0xe0 → 0xa0 ≤ b1) ∧ (b = 0xed → b1 < 0xa0)) :
    utf8Decode (b :: b1 :: b2 :: rest)
      = (utf8Decode rest).map
          (Char.ofNat ((b - 0xe0) * 0x1000 + (b1 - 0x80) * 0x40 + (b2 - 0x80)) :: ·) := by
  rw [utf8Decode.eq_def]
  dsimp only
  rw [if_neg (by omega), if_neg (by omega), if_neg (by omega), if_pos hb', utf8Dec3.eq_def]
  dsimp only
  rw [if_pos hc]

theorem utf8Decode_four (b b1 b2 b3 : Nat) (rest : List Nat) (hb : 0xf0 ≤ b) (hb' : b < 0xf5)
    (hc : (0x80 ≤ b1 ∧ b1 < 0xc0) ∧ (0x80 ≤ b2 ∧ b2 < 0xc0) ∧ (0x80 ≤ b3 ∧ b3 < 0xc0)
      ∧ (b = 0xf0 → 0x90 ≤ b1) ∧ (b = 0xf4 → b1 < 0x90)) :
    utf8Decode (b :: b1 :: b2 :: b3 :: rest)
      = (utf8Decode rest).map
          (Char.ofNat ((b - 0xf0) * 0x40000 + (b1 - 0x80) * 0x1000
            + (b2 - 0x80) * 0x40 + (b3 - 0x80)) :: ·) := by
  rw [utf8Decode.eq_def]
  dsimp only
  rw [if_neg (by omega), if_neg (by omega), if_neg (by omega), if_neg (by omega),
    if_pos hb', utf8Dec4.eq_def]
  dsimp only
  rw [if_pos hc]

/-- UTF-8 decoding undoes UTF-8 encoding on character lists. -/
theorem utf8_roundtrip (cs : List Char) :
    utf8Decode (cs.flatMap utf8EncodeChar) = some cs := by
  induction cs with
  | nil => rw [List.flatMap_nil, utf8Decode.eq_def]
  | cons ch cs ih =>
    have hv : ch.toNat < 0xd800 ∨ (0xdfff < ch.toNat ∧ ch.toNat < 0x110000) := ch.valid
    rw [List.flatMap_cons]
    by_cases h1 : ch.toNat < 0x80
    · rw [show utf8EncodeChar ch = [ch.toNat] from by
        unfold utf8EncodeChar; rw [if_pos h1]]
      rw [List.cons_append, List.nil_append, utf8Decode_one _ _ h1, ih,
        Option.map_some', Char.ofNat_toNat]
    · by_cases h2 : ch.toNat < 0x800
      · rw [show utf8EncodeChar ch = [0xc0 + ch.toNat / 0x40, 0x80 + ch.toNat % 0x40] from by
          unfold utf8EncodeChar; rw [if_neg h1, if_pos h2]]
        rw [List.cons_append, List.cons_append, List.nil_append,
          utf8Decode_two _ _ _ (by omega) (by omega) (by omega), ih, Option.map_some']
        rw [show (0xc0 + ch.toNat / 0x40 - 0xc0) * 0x40 + (0x80 + ch.toNat % 0x40 - 0x80)
            = ch.toNat from by omega, Char.ofNat_toNat]
      · by_cases h3 : ch.toNat < 0x10000
        · rw [show utf8EncodeChar ch = [0xe0 + ch.toNat / 0x1000,
            0x80 + ch.toNat / 0x40 % 0x40, 0x80 + ch.toNat % 0x40] from by
              unfold utf8EncodeChar; rw [if_neg h1, if_neg h2, if_pos h3]]
          rw [List.cons_append, List.cons_append, List.cons_append, List.nil_append,
            utf8Decode_three _ _ _ _ (by omega) (by omega) (by omega), ih, Option.map_some']
          rw [show (0xe0 + ch.toNat / 0x1000 - 0xe0) * 0x1000
              + (0x80 + ch.toNat / 0x40 % 0x40 - 0x80) * 0x40
              + (0x80 + ch.toNat % 0x40 - 0x80) = ch.toNat from by omega, Char.ofNat_toNat]
        · rw [show utf8EncodeChar ch = [0xf0 + ch.toNat / 0x40000,
            0x80 + ch.toNat / 0x1000 % 0x40, 0x80 + ch.toNat / 0x40 % 0x40,
            0x80 + ch.toNat % 0x40] from by
              unfold utf8EncodeChar; rw [if_neg h1, if_neg h2, if_neg h3]]
          rw [List.cons_append, List.cons_append, List.cons_append, List.cons_append,
            List.nil_append,
            utf8Decode_four _ _ _ _ _ (by omega) (by omega) (by omega), ih, Option.map_some']
          rw [show (0xf0 + ch.toNat / 0x40000 - 0xf0) * 0x40000
              + (0x80 + ch.toNat / 0x1000 % 0x40 - 0x80) * 0x1000
              + (0x80 + ch.toNat / 0x40 % 0x40 - 0x80) * 0x40
              + (0x80 + ch.toNat % 0x40 - 0x80) = ch.toNat from by omega, Char.ofNat_toNat]

theorem parseHex_hexDigitLower : ∀ n < 16, parseHex (hexDigitLower n) = some n := by
  decide

theorem hex4Val_hex4 (n : Nat) (h : n < 0x10000) :
    hex4Val (hexDigitLower (n / 4096 % 16)) (hexDigitLower (n / 256 % 16))
      (hexDigitLower (n / 16 % 16)) (hexDigitLower (n % 16)) = some n := by
  have e1 := parseHex_hexDigitLower (n / 4096 % 16) (by omega)
  have e2 := parseHex_hexDigitLower (n / 256 % 16) (by omega)
  have e3 := parseHex_hexDigitLower (n / 16 % 16) (by omega)
  have e4 := parseHex_hexDigitLower (n % 16) (by omega)
  simp only [hex4Val, e1, e2, e3, e4, Option.some.injEq]
  omega

theorem parseInString_quote (acc : List Char) (out : List String) (rest : List Char) :
    parseInString acc out ('"' :: rest) = parseAfterItem (out ++ [String.mk acc]) rest := by
  rw [parseInString.eq_def]
  dsimp only
  rw [if_pos rfl]

theorem parseInString_backslash (acc : List Char) (out : List String) (rest : List Char) :
    parseInString acc out ('\\' :: rest) = parseEscape acc out rest := by
  rw [parseInString.eq_def]
  dsimp only
  rw [if_neg (by decide), if_pos rfl]

theorem parseInString_lit (c : Char) (acc : List Char) (out : List String)
    (rest : List Char) (h1 : ¬ c = '"') (h2 : ¬ c = '\\') (h3 : ¬ c.toNat < 0x20) :
    parseInString acc out (c :: rest) = parseInString (acc ++ [c]) out rest := by
  rw [parseInString.eq_def]
  dsimp only
  rw [if_neg h1, if_neg h2, if_neg h3]

theorem parseEscape_u (acc : List Char) (out : List String) (rest : List Char) :
    parseEscape acc out ('u' :: rest) = parseUnicode acc out rest := by
  rw [parseEscape.eq_def]
  dsimp only
  rw [if_pos rfl]

theorem parseItemStart_space (out : List String) (rest : List Char) :
    parseItemStart out (' ' :: rest) = parseItemStart out rest := by
  rw [parseItemStart.eq_def]
  dsimp only
  rw [if_pos (Or.inl rfl)]

theorem parseItemStart_quote (out : List String) (rest : List Char) :
    parseItemStart out ('"' :: rest) = parseInString [] out rest := by
  rw [parseItemStart.eq_def]
  dsimp only
  rw [if_neg (by decide), if_pos rfl]

theorem parseAfterItem_comma (out : List String) (rest : List Char) :
    parseAfterItem out (',' :: rest) = parseItemStart out rest := by
  rw [parseAfterItem.eq_def]
  dsimp only
  rw [if_neg (by decide), if_pos rfl]

theorem parseAfterItem_done (out : List String) :
    parseAfterItem out [']'] = some out := by
  rw [parseAfterItem.eq_def]
  dsimp only
  rw [if_neg (by decide), if_neg (by decide), if_pos rfl, if_pos (by decide)]

theorem parseUnicode_step (h1 h2 h3 h4 : Char) (acc : List Char) (out : List String)
    (rest : List Char) :
    parseUnicode acc out (h1 :: h2 :: h3 :: h4 :: rest) =
      match hex4Val h1 h2 h3 h4 with
      | none => none
      | some n =>
        if 0xd800 ≤ n ∧ n < 0xdc00 then parseLowSurrogate n acc out rest
        else if 0xdc00 ≤ n ∧ n < 0xe000 then none
        else parseInString (acc ++ [Char.ofNat n]) out rest := by
  rw [parseUnicode.eq_def]

theorem parseLowSurrogate_step (n : Nat) (s1 s2 k1 k2 k3 k4 : Char) (acc : List Char)
    (out : List String) (rest : List Char) :
    parseLowSurrogate n acc out (s1 :: s2 :: k1 :: k2 :: k3 :: k4 :: rest) =
      (if s1 = '\\' ∧ s2 = 'u' then
        match hex4Val k1 k2 k3 k4 with
        | none => none
        | some m =>
          if 0xdc00 ≤ m ∧ m < 0xe000 then
            parseInString
              (acc ++ [Char.ofNat (0x10000 + (n - 0xd800) * 0x400 + (m - 0xdc00))])
              out rest
          else none
      else none) := by
  rw [parseLowSurrogate.eq_def]

/-- Parsing the escape sequence `json.dumps` writes for one character
appends exactly that character. -/
theorem parseInString_escapeChar (c : Char) (acc : List Char) (out : List String)
    (rest : List Char) :
    parseInString acc out (jsonEscapeChar c ++ rest)
      = parseInString (acc ++ [c]) out rest := by
  have hv : c.toNat < 0xd800 ∨ (0xdfff < c.toNat ∧ c.toNat < 0x110000) := c.valid
  by_cases hq : c = '"'
  · subst hq
    rw [show jsonEscapeChar '"' = ['\\', '"'] from rfl, List.cons_append,
      List.cons_append, List.nil_append, parseInString_backslash, parseEscape.eq_def]
    dsimp only
    simp +decide
  · by_cases hbs : c = '\\'
    · subst hbs
      rw [show jsonEscapeChar '\\' = ['\\', '\\'] from rfl, List.cons_append,
        List.cons_append, List.nil_append, parseInString_backslash, parseEscape.eq_def]
      dsimp only
      simp +decide
    · by_cases hn : c = '\n'
      · subst hn
        rw [show jsonEscapeChar '\n' = ['\\', 'n'] from rfl, List.cons_append,
          List.cons_append, List.nil_append, parseInString_backslash, parseEscape.eq_def]
        dsimp only
        simp +decide
      · by_cases ht : c = '\t'
        · subst ht
          rw [show jsonEscapeChar '\t' = ['\\', 't'] from rfl, List.cons_append,
            List.cons_append, List.nil_append, parseInString_backslash, parseEscape.eq_def]
          dsimp only
          simp +decide
        · by_cases hr : c = '\r'
          · subst hr
            rw [show jsonEscapeChar '\r' = ['\\', 'r'] from rfl, List.cons_append,
              List.cons_append, List.nil_append, parseInString_backslash, parseEscape.eq_def]
            dsimp only
            simp +decide
          · by_cases hb : c = '\x08'
            · subst hb
              rw [show jsonEscapeChar '\x08' = ['\\', 'b'] from rfl, List.cons_append,
                List.cons_append, List.nil_append, parseInString_backslash, parseEscape.eq_def]
              dsimp only
              simp +decide
            · by_cases hf : c = '\x0c'
              · subst hf
                rw [show jsonEscapeChar '\x0c' = ['\\', 'f'] from rfl, List.cons_append,
                  List.cons_append, List.nil_append, parseInString_backslash,
                  parseEscape.eq_def]
                dsimp only
                simp +decide
              · by_cases hrange : c.toNat < 0x20 ∨ 0x7e < c.toNat
                · by_cases hbmp : c.toNat < 0x10000
                  · rw [show jsonEscapeChar c = '\\' :: 'u' :: hex4 c.toNat from by
                      unfold jsonEscapeChar
                      rw [if_neg hq, if_neg hbs, if_neg hn, if_neg ht, if_neg hr,
                        if_neg hb, if_neg hf, if_pos hrange, if_pos hbmp]]
                    rw [hex4, List.cons_append, List.cons_append, List.cons_append,
                      List.cons_append, List.cons_append, List.cons_append, List.nil_append,
                      parseInString_backslash, parseEscape_u, parseUnicode_step,
                      hex4Val_hex4 _ hbmp]
                    dsimp only
                    rw [if_neg (by omega), if_neg (by omega), Char.ofNat_toNat]
                  · rw [show jsonEscapeChar c =
                      ('\\' :: 'u' :: hex4 (0xd800 + (c.toNat - 0x10000) / 0x400))
                        ++ ('\\' :: 'u' :: hex4 (0xdc00 + (c.toNat - 0x10000) % 0x400)) from by
                      unfold jsonEscapeChar
                      rw [if_neg hq, if_neg hbs, if_neg hn, if_neg ht, if_neg hr,
                        if_neg hb, if_neg hf, if_pos hrange, if_neg hbmp]]
                    rw [hex4, hex4]
                    simp only [List.cons_append, List.nil_append, List.append_assoc]
                    rw [parseInString_backslash, parseEscape_u, parseUnicode_step,
                      hex4Val_hex4 _ (by omega)]
                    dsimp only
                    rw [if_pos (by omega), parseLowSurrogate_step,
                      if_pos ⟨rfl, rfl⟩, hex4Val_hex4 _ (by omega)]
                    dsimp only
                    rw [if_pos (by omega)]
                    rw [show 0x10000 + (0xd800 + (c.toNat - 0x10000) / 0x400 - 0xd800) * 0x400
                        + (0xdc00 + (c.toNat - 0x10000) % 0x400 - 0xdc00) = c.toNat from by
                          omega, Char.ofNat_toNat]
                · rw [show jsonEscapeChar c = [c] from by
                    unfold jsonEscapeChar
                    rw [if_neg hq, if_neg hbs, if_neg hn, if_neg ht, if_neg hr,
                      if_neg hb, if_neg hf, if_neg hrange]]
                  rw [List.cons_append, List.nil_append]
                  exact parseInString_lit c acc out rest hq hbs (by omega)

/-- Parsing the escaped content of a whole string appends exactly its
characters. -/
theorem parseInString_content (cs : List Char) (acc : List Char) (out : List String)
    (rest : List Char) :
    parseInString acc out (cs.flatMap jsonEscapeChar ++ rest)
      = parseInString (acc ++ cs) out rest := by
  induction cs generalizing acc with
  | nil => simp
  | cons c cs ih =>
    rw [List.flatMap_cons, List.append_assoc, parseInString_escapeChar, ih]
    simp

/-- Parsing one JSON string literal produced by the encoder yields its
string and moves on. -/
theorem parseItemStart_jsonQuote (s : String) (out : List String) (rest : List Char) :
    parseItemStart out (jsonQuote s ++ rest) = parseAfterItem (out ++ [s]) rest := by
  rw [jsonQuote, List.cons_append, parseItemStart_quote, List.append_assoc,
    List.singleton_append, parseInString_content, List.nil_append,
    parseInString_quote]

/-- Parsing the encoder's comma-separated item list recovers the items. -/
theorem parseItemStart_jsonItems (l : List String) (s : String) (out : List String) :
    parseItemStart out (jsonItems (s :: l) ++ [Char.ofNat 93])
      = some (out ++ s :: l) := by
  induction l generalizing s out with
  | nil =>
    rw [show jsonItems [s] = jsonQuote s from rfl, parseItemStart_jsonQuote,
      show (Char.ofNat 93) = ']' from rfl, parseAfterItem_done]
  | cons t ts ih =>
    rw [show jsonItems (s :: t :: ts) = jsonQuote s ++ ',' :: ' ' :: jsonItems (t :: ts)
        from rfl,
      List.append_assoc, parseItemStart_jsonQuote, List.cons_append,
      parseAfterItem_comma, List.cons_append, parseItemStart_space, ih]
    simp

theorem skipWs_cons_of (c : Char) (r : List Char)
    (h : ¬(c = ' ' ∨ c = '\t' ∨ c = '\n' ∨ c = '\r')) :
    skipWs (c :: r) = c :: r := by
  rw [skipWs, if_neg h]

/-- The item list the encoder writes for a non-empty list starts with a
quote. -/
theorem jsonItems_cons_head (s : String) (ls : List String) :
    ∃ X, jsonItems (s :: ls) = '"' :: X := by
  cases ls with
  | nil => exact ⟨_, rfl⟩
  | cons t ts => exact ⟨_, rfl⟩

/-- C8 core: `json.loads` inverts `json.dumps` on every list of
strings. -/
theorem jsonLoads_dumps (l : List String) :
    jsonLoadsStrings (jsonDumpsList l) = some l := by
  cases l with
  | nil => rfl
  | cons s ls =>
    obtain ⟨X, hX⟩ := jsonItems_cons_head s ls
    have hskip : skipWs (jsonItems (s :: ls) ++ [']']) = '"' :: (X ++ [']']) := by
      rw [hX, List.cons_append, skipWs_cons_of _ _ (by decide)]
    rw [jsonLoadsStrings, jsonDumpsList]
    rw [show (String.mk ('[' :: (jsonItems (s :: ls) ++ [']']))).data
          = '[' :: (jsonItems (s :: ls) ++ [']']) from rfl,
      skipWs_cons_of _ _ (by decide)]
    dsimp only
    rw [if_pos rfl, hskip]
    dsimp only
    rw [if_neg (by decide), show (']' : Char) = Char.ofNat 93 from rfl,
      parseItemStart_jsonItems, List.nil_append]

/-- C8: round-trip of init-command encoding: for every list of strings
`l`, `decode_init_commands (encode_init_commands l)` equals `l` — the
base64, UTF-8 and JSON stages each invert their encoding counterparts. -/
theorem init_commands_roundtrip (l : List String) :
    decode_init_commands (encode_init_commands l) = some l := by
  have hbytes : ∀ x ∈ pyEncodeUtf8 (jsonDumpsList l), x < 256 := by
    intro x hx
    rw [pyEncodeUtf8, List.mem_flatMap] at hx
    obtain ⟨c, _, hc⟩ := hx
    exact utf8EncodeChar_lt c x hc
  rw [decode_init_commands,
    show (encode_init_commands l).data
      = base64Encode (pyEncodeUtf8 (jsonDumpsList l)) from rfl,
    base64_roundtrip _ hbytes]
  rw [Option.bind_eq_bind, Option.some_bind, pyDecodeUtf8, pyEncodeUtf8,
    utf8_roundtrip, Option.map_some']
  rw [Option.bind_eq_bind, Option.some_bind,
    show String.mk (jsonDumpsList l).data = jsonDumpsList l from rfl,
    jsonLoads_dumps]

end ClaudeDocker
